import Mathlib

/-!
Verification of `src/iris/io/class_configs.py` (open-iris).

The file embeds, as executable Lean definitions, the three components of the
module: the immutable pydantic configuration record (`ImmutableModel` and its
`Config` options), the `Algorithm` base class with its callback-instrumented
`execute` protocol, and the `instantiate_class_from_name` resolver.  Theorems
below each state one property of the spec against these definitions.

Python exceptions are embedded as the `Err` inductive; a fallible Python
operation becomes a Lean function into `Except Err _` (or a pair with an
`Option Err` when the pre-exception state matters).  The spec's abstract error
taxonomy maps onto the concrete exceptions the code raises:
`ValidationError`-kind is pydantic's `ValidationError` (`Err.validationError`),
`ImmutabilityViolation`-kind is the `TypeError` pydantic raises under
`allow_mutation = False` (`Err.typeError`), `NotImplemented`-kind is the
`RuntimeError`/`NotImplementedError` raised by the default
`serialize`/`deserialize`/`run` (`Err.runtimeError`, `Err.notImplementedError`),
and `LookupError`-kind is the `ValueError` raised by the resolver
(`Err.valueError`).
-/

namespace ClassConfigs

/-- Exceptions raised by the module (directly or via pydantic). -/
inductive Err where
  | validationError (failingFields : List String)
  | typeError (msg : String)
  | runtimeError (msg : String)
  | notImplementedError (msg : String)
  | valueError (msg : String)
deriving DecidableEq, Repr

/-- Does the character list `pat` start the character list `s`? -/
def startsWithChars : List Char → List Char → Bool
  | [], _ => true
  | _ :: _, [] => false
  | p :: ps, c :: cs => p == c && startsWithChars ps cs

/-- Does the character list `pat` occur contiguously inside `s`? -/
def occursInChars (pat : List Char) : List Char → Bool
  | [] => startsWithChars pat []
  | c :: cs => startsWithChars pat (c :: cs) || occursInChars pat cs

/-- `name` occurs as a contiguous substring of `msg`. -/
def namedIn (name msg : String) : Bool :=
  occursInChars name.data msg.data

/-! ## Immutable configuration record

`ImmutableModel` (lines 13-24) is a pydantic `BaseModel` whose `Config` sets
`allow_mutation = False`, `validate_all = True` and `extra = Extra.ignore`.
A concrete record shape is a list of declared fields, each with an optional
default and a validation check; a record instance is the association list of
the declared fields' validated values. -/

/-- A declared pydantic field: name, declared default, declared type/shape check. -/
structure FieldSpec (W : Type) where
  name : String
  default : Option W
  check : W → Bool

/-- A constructed record: declared field names paired with their values. -/
abbrev Record (W : Type) := List (String × W)

/-- First value bound to key `k`, as in a Python `dict` lookup (keys are unique there). -/
def lookupKey {W : Type} : List (String × W) → String → Option W
  | [], _ => none
  | (k, v) :: rest, key => if k = key then some v else lookupKey rest key

/-- Remove every binding of key `key`, as in Python `del kwargs[key]`. -/
def eraseKey {W : Type} (kvs : List (String × W)) (key : String) : List (String × W) :=
  kvs.filter (fun kv => kv.1 ≠ key)

/-- The value validation sees for a declared field: the supplied value if one was
passed, otherwise the declared default (pydantic fills defaults before
validation; `validate_all = True` makes defaults validated too). -/
def resolveField {W : Type} (supplied : List (String × W)) (f : FieldSpec W) : Option W :=
  match lookupKey supplied f.name with
  | some v => some v
  | none => f.default

/-- Names of the declared fields whose resolved value is missing or fails its
check; pydantic validates every declared field and reports all failures in one
`ValidationError`. -/
def failingFields {W : Type} (fields : List (FieldSpec W)) (supplied : List (String × W)) :
    List String :=
  fields.filterMap (fun f =>
    match resolveField supplied f with
    | none => some f.name
    | some v => if f.check v then none else some f.name)

/-- Construction of an `ImmutableModel` from keyword arguments: defaults are
filled in, every declared field is validated (`validate_all = True`), keys that
match no declared field are dropped (`extra = Extra.ignore`), and any failure
raises one `ValidationError` naming the offending fields. -/
def constructRecord {W : Type} (fields : List (FieldSpec W)) (supplied : List (String × W)) :
    Except Err (Record W) :=
  match failingFields fields supplied with
  | [] => Except.ok (fields.filterMap (fun f => (resolveField supplied f).map (fun v => (f.name, v))))
  | errs => Except.error (Err.validationError errs)

/-- Attempted attribute assignment on a constructed record.  With
`allow_mutation = False`, pydantic's `__setattr__` raises
`TypeError("<class>" is immutable and does not support item assignment)` before
touching the instance dict, so the returned record is the untouched input. -/
def setFieldAttempt {W : Type} (className : String) (r : Record W)
    (_fieldName : String) (_v : W) : Record W × Option Err :=
  (r, some (Err.typeError
    ("\"" ++ className ++ "\" is immutable and does not support item assignment")))

/-! ## Default serialize / deserialize (lines 26-41)

`ImmutableModel.serialize` raises `RuntimeError` naming `self.__class__.__name__`
(the runtime class of the instance); `ImmutableModel.deserialize` is a
`@staticmethod` and raises `RuntimeError` naming `ImmutableModel.__name__`,
which is always the base class itself.  A concrete model class is embedded as
its name plus its optional method overrides. -/

structure ModelClass (γ : Type) where
  name : String
  serializeImpl : Option (Except Err γ)
  deserializeImpl : Option (Except Err γ)

/-- Method dispatch for `serialize`: the override if the class supplies one,
otherwise the inherited default of lines 26-32. -/
def ModelClass.serialize {γ : Type} (c : ModelClass γ) : Except Err γ :=
  match c.serializeImpl with
  | some r => r
  | none => Except.error (Err.runtimeError (c.name ++ ".serialize not implemented!"))

/-- Method dispatch for `deserialize`: the override if the class supplies one,
otherwise the inherited default of lines 34-41, whose message interpolates
`ImmutableModel.__name__`. -/
def ModelClass.deserialize {γ : Type} (c : ModelClass γ) : Except Err γ :=
  match c.deserializeImpl with
  | some r => r
  | none => Except.error (Err.runtimeError ("ImmutableModel" ++ ".deserialize not implemented!"))

/-! ## Algorithm base class (lines 44-97)

`Algorithm.__init__` stores (a deep copy of) the callback list and builds the
parameters record; `__call__` delegates to `execute`; `execute` fires each
callback's `on_execute_start`, runs `run`, fires each callback's
`on_execute_end`, and returns `run`'s result.

A callback is external code: the embedding keeps its identity (`id`) and its
only behaviour visible to this module, namely whether each of its two entry
points raises.  Each invocation the skeleton performs is recorded as an
`Event`, so a theorem about "what was invoked, in what order, with what
arguments" is a statement about the event trace.  `α` is the tuple of call
arguments, `β` the result type of `run`. -/

/-- A hook object, per the capability interface `execute` consumes:
`on_execute_start` receives the call arguments, `on_execute_end` the result;
either may raise (`some e`) or return normally (`none`). -/
structure Callback (α β : Type) where
  id : Nat
  onExecuteStart : α → Option Err
  onExecuteEnd : β → Option Err

/-- One observable invocation performed by `execute`. -/
inductive Event (α β : Type) where
  | onStart (hookId : Nat) (args : α)
  | runCall (args : α)
  | onEnd (hookId : Nat) (result : β)
deriving DecidableEq, Repr

/-- Is this event an `on_execute_end` invocation? -/
def Event.isEnd {α β : Type} : Event α β → Bool
  | .onEnd _ _ => true
  | _ => false

/-- A heap of caller-owned callback lists, addressed by `Nat`.  It makes the
aliasing that `deepcopy` severs expressible: a hook sequence held by reference
changes when the heap cell is mutated, a deep-copied one does not. -/
def Store (α β : Type) := Nat → List (Callback α β)

/-- Overwrite the heap cell at `addr` (the caller mutating its own list). -/
def updateStore {α β : Type} (σ : Store α β) (addr : Nat) (hooks : List (Callback α β)) :
    Store α β :=
  fun a => if a = addr then hooks else σ a

/-- A node's `_callbacks` attribute: either an owned value snapshot (what
`deepcopy` produces) or an alias into the caller's heap cell (what plain
assignment would have produced). -/
inductive HookSeq (α β : Type) where
  | byValue (hooks : List (Callback α β))
  | byRef (addr : Nat)

/-- Read a hook sequence through the heap. -/
def resolveHooks {α β : Type} (σ : Store α β) : HookSeq α β → List (Callback α β)
  | .byValue hooks => hooks
  | .byRef addr => σ addr

/-- A keyword-argument value passed to `Algorithm.__init__`: either the
caller's hook sequence (a reference into the heap) or a plain configuration
value. -/
inductive PyArg (V : Type) where
  | hooksRef (addr : Nat)
  | v (x : V)
deriving DecidableEq

/-- A constructed `Algorithm` node: its concrete class name, its `_callbacks`
attribute, its `params` record, and the concrete class's `run` override
(`none` when the subclass did not override `run`). -/
structure Algorithm (α β V : Type) where
  className : String
  callbacks : HookSeq α β
  params : Record (PyArg V)
  runOverride : Option (α → Except Err β)

/-- Method dispatch for `run`: the subclass override if present, otherwise the
base default of lines 88-97, which raises `NotImplementedError` naming
`self.__class__.__name__`. -/
def Algorithm.runMethod {α β V : Type} (node : Algorithm α β V) : α → Except Err β :=
  match node.runOverride with
  | some f => f
  | none => fun _ =>
      Except.error (Err.notImplementedError (node.className ++ ".run method not implemented!"))

/-- `Algorithm.__init__` (lines 54-62): if the reserved key `"callbacks"` is
present, its value is deep-copied (a value snapshot of the heap cell, severing
the alias) into `_callbacks` and the key is deleted; the remaining keyword
arguments are forwarded to the parameters-record constructor declared by the
concrete class.  A `"callbacks"` value that is not a hook sequence is outside
the embedding's scope (the Python annotation promises `List[Callback]`; such a
node would fail later, inside `execute`'s iteration). -/
def Algorithm.init {α β V : Type} (paramsType : List (FieldSpec (PyArg V)))
    (className : String) (runOverride : Option (α → Except Err β)) (σ : Store α β)
    (kwargs : List (String × PyArg V)) : Except Err (Algorithm α β V) :=
  let cbs : HookSeq α β :=
    match lookupKey kwargs "callbacks" with
    | some (PyArg.hooksRef addr) => HookSeq.byValue (σ addr)
    | some (PyArg.v _) => HookSeq.byValue []
    | none => HookSeq.byValue []
  let rest :=
    if (lookupKey kwargs "callbacks").isSome then eraseKey kwargs "callbacks" else kwargs
  match constructRecord paramsType rest with
  | Except.error e => Except.error e
  | Except.ok r => Except.ok ⟨className, cbs, r, runOverride⟩

/-- The loop `for callback_func in self._callbacks: callback_func.on_execute_start(...)`:
each invocation is recorded; a raising callback aborts the remainder. -/
def fireStarts {α β : Type} (cbs : List (Callback α β)) (args : α) :
    List (Event α β) × Option Err :=
  match cbs with
  | [] => ([], none)
  | c :: rest =>
    match c.onExecuteStart args with
    | some e => ([Event.onStart c.id args], some e)
    | none =>
      let (tr, r) := fireStarts rest args
      (Event.onStart c.id args :: tr, r)

/-- The loop `for callback_func in self._callbacks: callback_func.on_execute_end(result)`. -/
def fireEnds {α β : Type} (cbs : List (Callback α β)) (result : β) :
    List (Event α β) × Option Err :=
  match cbs with
  | [] => ([], none)
  | c :: rest =>
    match c.onExecuteEnd result with
    | some e => ([Event.onEnd c.id result], some e)
    | none =>
      let (tr, r) := fireEnds rest result
      (Event.onEnd c.id result :: tr, r)

/-- The body of `Algorithm.execute` (lines 72-86), parameterised by the hook
list and the `run` method: start hooks, then `run`, then end hooks, returning
`run`'s result; any raise propagates and aborts the remainder. -/
def executeSkeleton {α β : Type} (cbs : List (Callback α β)) (run : α → Except Err β)
    (args : α) : List (Event α β) × Except Err β :=
  match fireStarts cbs args with
  | (tr, some e) => (tr, Except.error e)
  | (tr, none) =>
    match run args with
    | Except.error e => (tr ++ [Event.runCall args], Except.error e)
    | Except.ok result =>
      match fireEnds cbs result with
      | (tr2, some e) => (tr ++ Event.runCall args :: tr2, Except.error e)
      | (tr2, none) => (tr ++ Event.runCall args :: tr2, Except.ok result)

/-- `Algorithm.execute`: the skeleton applied to the node's own hooks and `run`
method.  The body assigns to no attribute of `self`, so the node comes back
unchanged as the first component. -/
def Algorithm.execute {α β V : Type} (σ : Store α β) (node : Algorithm α β V) (args : α) :
    Algorithm α β V × List (Event α β) × Except Err β :=
  let (tr, res) := executeSkeleton (resolveHooks σ node.callbacks) node.runMethod args
  (node, tr, res)

/-- `Algorithm.__call__` (lines 64-70): `return self.execute(*args, **kwargs)`. -/
def Algorithm.call {α β V : Type} (σ : Store α β) (node : Algorithm α β V) (args : α) :
    Algorithm α β V × List (Event α β) × Except Err β :=
  Algorithm.execute σ node args

/-! ## Dynamic instantiation resolver (lines 100-116)

`pydoc.locate` is the Python runtime's symbol search; the embedding takes it as
an environment `locate`.  A located class is its constructor: keyword
arguments to either a constructed instance or a raised exception. -/

/-- `instantiate_class_from_name`: locate the class, raise
`ValueError("Could not locate class <name>")` when nothing is found, otherwise
call the located class with the keyword arguments and return whatever that
returns (or raises). -/
def instantiate_class_from_name {W N : Type}
    (locate : String → Option (List (String × W) → Except Err N))
    (class_name : String) (kwargs : List (String × W)) : Except Err N :=
  match locate class_name with
  | none => Except.error (Err.valueError ("Could not locate class " ++ class_name))
  | some object_class => object_class kwargs

/-! ## Concrete instances used by the witness theorems

They mirror the spec's running example: a node class `Adder` whose parameters
record declares `increment : integer, default 1`. -/

/-- A hook that never raises, identified as hook 1. -/
def cbA : Callback Nat Nat := ⟨1, fun _ => none, fun _ => none⟩

/-- A hook that never raises, identified as hook 2. -/
def cbB : Callback Nat Nat := ⟨2, fun _ => none, fun _ => none⟩

/-- A heap whose cell 0 holds the caller's hook sequence `[cbA, cbB]`. -/
def store₀ : Store Nat Nat := fun _ => [cbA, cbB]

/-- The declared `increment` field: default 1, value must be a plain natural below 10. -/
def incrementField : FieldSpec (PyArg Nat) :=
  ⟨"increment", some (PyArg.v 1), fun a => match a with | PyArg.v n => n < 10 | _ => false⟩

/-- The `Adder.Parameters` shape: the single `increment` field. -/
def adderParams : List (FieldSpec (PyArg Nat)) := [incrementField]

/-- The `Adder` subclass's `run` override: add one. -/
def runAdd : Nat → Except Err Nat := fun n => Except.ok (n + 1)

/-- An `Adder` node as built by `Algorithm.init` from `callbacks = heap cell 0`
and the defaulted `increment = 1`, with `run n = n + 1`. -/
def adderNode : Algorithm Nat Nat Nat :=
  ⟨"Adder", HookSeq.byValue [cbA, cbB], [("increment", PyArg.v 1)], some runAdd⟩

/-- Keyword arguments carrying the reserved hook key (pointing at heap cell 0)
plus a configuration value. -/
def kwWithCallbacks : List (String × PyArg Nat) :=
  [("callbacks", PyArg.hooksRef 0), ("increment", PyArg.v 3)]

/-- Keyword arguments without the reserved hook key. -/
def kwPlain : List (String × PyArg Nat) := [("increment", PyArg.v 3)]

/-- The node `Algorithm.init` builds from `kwWithCallbacks` over `store₀`. -/
def builtNode : Algorithm Nat Nat Nat :=
  ⟨"Adder", HookSeq.byValue [cbA, cbB], [("increment", PyArg.v 3)], some runAdd⟩

/-- A node whose class (named `Adder`) did not override `run`. -/
def bareNode : Algorithm Nat Nat Nat :=
  ⟨"Adder", HookSeq.byValue [cbA], [("increment", PyArg.v 1)], none⟩

/-- A symbol table that knows one class, `iris.nodes.Adder`, whose constructor
counts its keyword arguments. -/
def locate₀ : String → Option (List (String × Nat) → Except Err Nat) :=
  fun s => if s = "iris.nodes.Adder" then some (fun kv => Except.ok kv.length) else none

/-! ## Helper lemmas -/

theorem startsWithChars_self (l : List Char) : startsWithChars l l = true := by
  induction l with
  | nil => rfl
  | cons c cs ih => simp [startsWithChars, ih]

theorem occursInChars_append_self (pat pre : List Char) :
    occursInChars pat (pre ++ pat) = true := by
  induction pre with
  | nil =>
    cases pat with
    | nil => rfl
    | cons c cs => simp [occursInChars, startsWithChars_self]
  | cons p ps ih => simp [occursInChars, ih]

theorem namedIn_append_self (name pre : String) : namedIn name (pre ++ name) = true := by
  unfold namedIn
  rw [String.data_append]
  exact occursInChars_append_self name.data pre.data

theorem lookupKey_eraseKey_self {W : Type} (kvs : List (String × W)) (k : String) :
    lookupKey (eraseKey kvs k) k = none := by
  induction kvs with
  | nil => rfl
  | cons kv rest ih =>
    simp only [eraseKey, List.filter_cons] at ih ⊢
    by_cases h : kv.1 = k
    · simpa [h] using ih
    · simpa [lookupKey, h] using ih

theorem fireStarts_all_ok {α β : Type} (cbs : List (Callback α β)) (args : α)
    (h : ∀ c ∈ cbs, c.onExecuteStart args = none) :
    fireStarts cbs args = (cbs.map (fun c => Event.onStart c.id args), none) := by
  induction cbs with
  | nil => rfl
  | cons c rest ih =>
    have hc : c.onExecuteStart args = none := h c (List.mem_cons_self c rest)
    have hr := ih (fun d hd => h d (List.mem_cons_of_mem c hd))
    simp [fireStarts, hc, hr]

theorem fireEnds_all_ok {α β : Type} (cbs : List (Callback α β)) (result : β)
    (h : ∀ c ∈ cbs, c.onExecuteEnd result = none) :
    fireEnds cbs result = (cbs.map (fun c => Event.onEnd c.id result), none) := by
  induction cbs with
  | nil => rfl
  | cons c rest ih =>
    have hc : c.onExecuteEnd result = none := h c (List.mem_cons_self c rest)
    have hr := ih (fun d hd => h d (List.mem_cons_of_mem c hd))
    simp [fireEnds, hc, hr]

theorem filterMapCongrMem {A B : Type} {g h : A → Option B} :
    ∀ l : List A, (∀ a ∈ l, g a = h a) → l.filterMap g = l.filterMap h
  | [], _ => rfl
  | a :: l, H => by
    have ha : g a = h a := H a (List.mem_cons_self a l)
    have hl := filterMapCongrMem l (fun b hb => H b (List.mem_cons_of_mem a hb))
    simp [List.filterMap_cons, ha, hl]

theorem mem_failingFields {W : Type} {fields : List (FieldSpec W)}
    {supplied : List (String × W)} {f : FieldSpec W} (hf : f ∈ fields) {v : W}
    (hv : resolveField supplied f = some v) (hc : f.check v = false) :
    f.name ∈ failingFields fields supplied := by
  unfold failingFields
  refine List.mem_filterMap.mpr ⟨f, hf, ?_⟩
  rw [hv]
  simp [hc]

theorem constructRecord_error_of_ne_nil {W : Type} {fields : List (FieldSpec W)}
    {supplied : List (String × W)} (h : failingFields fields supplied ≠ []) :
    constructRecord fields supplied =
      Except.error (Err.validationError (failingFields fields supplied)) := by
  unfold constructRecord
  split
  · rename_i heq
    exact absurd heq h
  · rfl

theorem constructRecord_ok_inv {W : Type} {fields : List (FieldSpec W)}
    {supplied : List (String × W)} {r : Record W}
    (h : constructRecord fields supplied = Except.ok r) :
    failingFields fields supplied = []
    ∧ r = fields.filterMap (fun f => (resolveField supplied f).map (fun v => (f.name, v))) := by
  unfold constructRecord at h
  split at h
  · rename_i heq
    exact ⟨heq, (Except.ok.injEq _ _).mp h |>.symm⟩
  · exact absurd h (by simp)

theorem failingFields_nil_all_pass {W : Type} {fields : List (FieldSpec W)}
    {supplied : List (String × W)} (h : failingFields fields supplied = [])
    {f : FieldSpec W} (hf : f ∈ fields) :
    ∃ v, resolveField supplied f = some v ∧ f.check v = true := by
  unfold failingFields at h
  rw [List.filterMap_eq_nil_iff] at h
  have := h f hf
  cases hres : resolveField supplied f with
  | none => rw [hres] at this; simp at this
  | some v =>
    rw [hres] at this
    refine ⟨v, rfl, ?_⟩
    by_cases hc : f.check v
    · exact hc
    · simp [hc] at this

theorem constructRecord_congr {W : Type} (fields : List (FieldSpec W))
    {s₁ s₂ : List (String × W)}
    (h : ∀ f ∈ fields, resolveField s₁ f = resolveField s₂ f) :
    constructRecord fields s₁ = constructRecord fields s₂ := by
  unfold constructRecord failingFields
  rw [filterMapCongrMem fields (g := fun f => (resolveField s₁ f).map (fun v => (f.name, v)))
        (h := fun f => (resolveField s₂ f).map (fun v => (f.name, v)))
        (fun f hf => by simp only [h f hf]),
      filterMapCongrMem fields
        (g := fun f => match resolveField s₁ f with
          | none => some f.name
          | some v => if f.check v then none else some f.name)
        (h := fun f => match resolveField s₂ f with
          | none => some f.name
          | some v => if f.check v then none else some f.name)
        (fun f hf => by simp only [h f hf])]

theorem resolveField_extra {W : Type} (s : List (String × W)) (k : String) (x : W)
    (f : FieldSpec W) (h : f.name ≠ k) :
    resolveField ((k, x) :: s) f = resolveField s f := by
  unfold resolveField
  simp only [lookupKey]
  rw [if_neg (fun hk => h hk.symm)]

theorem init_ok_byValue {α β V : Type} {paramsType : List (FieldSpec (PyArg V))}
    {className : String} {runOverride : Option (α → Except Err β)} {σ : Store α β}
    {kwargs : List (String × PyArg V)} {node : Algorithm α β V}
    (h : Algorithm.init paramsType className runOverride σ kwargs = Except.ok node) :
    ∃ hooks, node.callbacks = HookSeq.byValue hooks := by
  unfold Algorithm.init at h
  rcases hL : lookupKey kwargs "callbacks" with _ | (addr | x) <;>
    rw [hL] at h <;>
    simp only [] at h <;>
    split at h <;>
    first
      | exact Except.noConfusion h
      | (injection h with h2; exact ⟨_, by rw [← h2]⟩)

/-! ## Claim theorems -/

/-- C1: a single `execute` call fires every hook's `on_execute_start` exactly
once, in registration order, with the call arguments, before `run` is invoked;
then invokes `run` with those same arguments; then fires every hook's
`on_execute_end` exactly once, in registration order, with `run`'s return
value; and returns that value unchanged.  The hypotheses restrict to the
default skeleton's normal completion: no hook and no `run` raise on this call
(a raise aborts the remainder, per the spec's §7). -/
theorem execute_hook_protocol {α β V : Type} (σ : Store α β) (node : Algorithm α β V)
    (args : α) (result : β)
    (hrun : node.runMethod args = Except.ok result)
    (hstart : ∀ c ∈ resolveHooks σ node.callbacks, c.onExecuteStart args = none)
    (hend : ∀ c ∈ resolveHooks σ node.callbacks, c.onExecuteEnd result = none) :
    Algorithm.execute σ node args =
      (node,
       (resolveHooks σ node.callbacks).map (fun c => Event.onStart c.id args)
         ++ Event.runCall args
           :: (resolveHooks σ node.callbacks).map (fun c => Event.onEnd c.id result),
       Except.ok result) := by
  simp [Algorithm.execute, executeSkeleton, fireStarts_all_ok _ _ hstart, hrun,
    fireEnds_all_ok _ _ hend]

theorem execute_hook_protocol_witness :
    adderNode.runMethod 5 = Except.ok 6
    ∧ Algorithm.execute store₀ adderNode 5 =
        (adderNode,
         (resolveHooks store₀ adderNode.callbacks).map (fun c => Event.onStart c.id 5)
           ++ Event.runCall 5
             :: (resolveHooks store₀ adderNode.callbacks).map (fun c => Event.onEnd c.id 6),
         Except.ok 6) :=
  ⟨rfl,
   execute_hook_protocol store₀ adderNode 5 6 rfl
     (by
       intro c hc
       cases hc with
       | head => rfl
       | tail _ h =>
         cases h with
         | head => rfl
         | tail _ h => cases h)
     (by
       intro c hc
       cases hc with
       | head => rfl
       | tail _ h =>
         cases h with
         | head => rfl
         | tail _ h => cases h)⟩

/-- C10: when `run` raises during `execute` (the start hooks having completed),
no hook's `on_execute_end` is invoked on that call, the exception propagates to
the caller of `execute`, and the node (its hook list and its `params` record)
is unchanged. -/
theorem execute_run_error {α β V : Type} (σ : Store α β) (node : Algorithm α β V)
    (args : α) (e : Err)
    (hstart : ∀ c ∈ resolveHooks σ node.callbacks, c.onExecuteStart args = none)
    (hrun : node.runMethod args = Except.error e) :
    Algorithm.execute σ node args =
      (node,
       (resolveHooks σ node.callbacks).map (fun c => Event.onStart c.id args)
         ++ [Event.runCall args],
       Except.error e)
    ∧ (∀ ev ∈ (Algorithm.execute σ node args).2.1, ev.isEnd = false)
    ∧ (Algorithm.execute σ node args).1 = node := by
  have hmain : Algorithm.execute σ node args =
      (node,
       (resolveHooks σ node.callbacks).map (fun c => Event.onStart c.id args)
         ++ [Event.runCall args],
       Except.error e) := by
    simp [Algorithm.execute, executeSkeleton, fireStarts_all_ok _ _ hstart, hrun]
  refine ⟨hmain, ?_, by rw [hmain]⟩
  rw [hmain]
  intro ev hev
  rcases List.mem_append.mp hev with hmem | hmem
  · rcases List.mem_map.mp hmem with ⟨c, _, rfl⟩
    rfl
  · rw [List.mem_singleton] at hmem
    subst hmem
    rfl

theorem execute_run_error_witness :
    Algorithm.execute store₀ bareNode 5 =
      (bareNode,
       (resolveHooks store₀ bareNode.callbacks).map (fun c => Event.onStart c.id 5)
         ++ [Event.runCall 5],
       Except.error (Err.notImplementedError ("Adder" ++ ".run method not implemented!")))
    ∧ (∀ ev ∈ (Algorithm.execute store₀ bareNode 5).2.1, ev.isEnd = false)
    ∧ (Algorithm.execute store₀ bareNode 5).1 = bareNode :=
  execute_run_error store₀ bareNode 5 _
    (by
      intro c hc
      cases hc with
      | head => rfl
      | tail _ h => cases h)
    rfl

/-- C7: invoking the node as a callable (`__call__`) is the same operation as
invoking `execute` with the same arguments: same result, same trace, same
failures. -/
theorem call_delegates_to_execute {α β V : Type} (σ : Store α β) (node : Algorithm α β V)
    (args : α) : Algorithm.call σ node args = Algorithm.execute σ node args := rfl

/-- C2: on any constructed record, an attempted assignment to any field raises
the immutability condition (the `TypeError` pydantic produces under
`allow_mutation = False`), and afterwards every field — in particular the
targeted one — still holds the value it held before the attempt; indeed the
whole record is unchanged. -/
theorem record_write_rejected {W : Type} (className : String) (r : Record W)
    (fieldName : String) (v : W) (probe : String) :
    (setFieldAttempt className r fieldName v).2 =
      some (Err.typeError
        ("\"" ++ className ++ "\" is immutable and does not support item assignment"))
    ∧ lookupKey (setFieldAttempt className r fieldName v).1 probe = lookupKey r probe
    ∧ (setFieldAttempt className r fieldName v).1 = r :=
  ⟨rfl, rfl, rfl⟩

/-- C5 counterexample: `deserialize` is a `@staticmethod` whose default message
interpolates `ImmutableModel.__name__`, so on a concrete type named
`MyParams` that has not overridden it, the failure message names
`ImmutableModel`, not `MyParams` — the concrete type's name does not occur in
the message at all. -/
theorem deserialize_names_base_class :
    ModelClass.deserialize (γ := Nat) ⟨"MyParams", none, none⟩ =
      Except.error (Err.runtimeError ("ImmutableModel" ++ ".deserialize not implemented!"))
    ∧ namedIn "MyParams" ("ImmutableModel" ++ ".deserialize not implemented!") = false :=
  ⟨rfl, by decide⟩

/-- C5 (amended): on a type that has not overridden them, `run` and `serialize`
fail with a message naming the concrete type on which they were invoked, while
`deserialize` fails with a message naming the base record type
`ImmutableModel` (its default is a static method with no access to the
concrete type). -/
theorem default_methods_fail_with_names {α β V γ : Type} (c : ModelClass γ)
    (node : Algorithm α β V) (args : α)
    (hs : c.serializeImpl = none) (hd : c.deserializeImpl = none)
    (hr : node.runOverride = none) :
    c.serialize = Except.error (Err.runtimeError (c.name ++ ".serialize not implemented!"))
    ∧ node.runMethod args =
        Except.error (Err.notImplementedError (node.className ++ ".run method not implemented!"))
    ∧ c.deserialize =
        Except.error (Err.runtimeError ("ImmutableModel" ++ ".deserialize not implemented!")) := by
  refine ⟨?_, ?_, ?_⟩
  · rw [ModelClass.serialize, hs]
  · rw [Algorithm.runMethod, hr]
  · rw [ModelClass.deserialize, hd]

theorem default_methods_fail_with_names_witness :
    ModelClass.serialize (γ := Nat) ⟨"MyParams", none, none⟩ =
      Except.error (Err.runtimeError ("MyParams" ++ ".serialize not implemented!"))
    ∧ bareNode.runMethod 5 =
        Except.error (Err.notImplementedError ("Adder" ++ ".run method not implemented!"))
    ∧ ModelClass.deserialize (γ := Nat) ⟨"MyParams", none, none⟩ =
        Except.error (Err.runtimeError ("ImmutableModel" ++ ".deserialize not implemented!")) :=
  default_methods_fail_with_names ⟨"MyParams", none, none⟩ bareNode 5 rfl rfl rfl

/-- C4: when the symbol search locates nothing under the identifier, the
resolver raises the lookup condition (`ValueError`) whose message carries the
unresolved identifier; when it locates a class, the resolver returns exactly
what calling that class with the same keyword arguments returns — any
construction failure, validation included, propagates as that very value,
unwrapped. -/
theorem instantiate_locates_or_fails {W N : Type}
    (locate : String → Option (List (String × W) → Except Err N))
    (class_name : String) (kwargs : List (String × W)) :
    (locate class_name = none →
        instantiate_class_from_name locate class_name kwargs =
          Except.error (Err.valueError ("Could not locate class " ++ class_name))
        ∧ namedIn class_name ("Could not locate class " ++ class_name) = true)
    ∧ ∀ ctor, locate class_name = some ctor →
        instantiate_class_from_name locate class_name kwargs = ctor kwargs := by
  constructor
  · intro h
    refine ⟨?_, namedIn_append_self class_name "Could not locate class "⟩
    rw [instantiate_class_from_name, h]
  · intro ctor h
    rw [instantiate_class_from_name, h]

theorem instantiate_locates_or_fails_witness :
    (instantiate_class_from_name locate₀ "iris.nodes.Missing" [] =
        Except.error (Err.valueError ("Could not locate class " ++ "iris.nodes.Missing"))
      ∧ namedIn "iris.nodes.Missing" ("Could not locate class " ++ "iris.nodes.Missing") = true)
    ∧ instantiate_class_from_name locate₀ "iris.nodes.Adder" [("increment", 3)] =
        (fun kv => Except.ok kv.length) [("increment", 3)] :=
  ⟨(instantiate_locates_or_fails locate₀ "iris.nodes.Missing" []).1 rfl,
   (instantiate_locates_or_fails locate₀ "iris.nodes.Adder" [("increment", 3)]).2
     (fun kv => Except.ok kv.length) rfl⟩

/-- C3: construction first resolves each declared field to its supplied value,
falling back to the declared default (`resolveField`), then checks every
declared field's resolved value; if any declared field's value fails its check
the construction raises the validation condition (naming the failing fields),
and on success each declared field holds its resolved — possibly defaulted —
value. -/
theorem constructRecord_validates {W : Type} (fields : List (FieldSpec W))
    (supplied : List (String × W)) :
    (∀ f ∈ fields, ∀ v, resolveField supplied f = some v → f.check v = false →
        constructRecord fields supplied =
          Except.error (Err.validationError (failingFields fields supplied))
        ∧ f.name ∈ failingFields fields supplied)
    ∧ (∀ r, constructRecord fields supplied = Except.ok r →
        ∀ f ∈ fields, ∃ v, resolveField supplied f = some v ∧ f.check v = true
          ∧ (f.name, v) ∈ r
          ∧ (lookupKey supplied f.name = none → f.default = some v)) := by
  constructor
  · intro f hf v hv hc
    have hmem := mem_failingFields hf hv hc
    have hne : failingFields fields supplied ≠ [] := by
      intro h0
      rw [h0] at hmem
      cases hmem
    exact ⟨constructRecord_error_of_ne_nil hne, hmem⟩
  · intro r hr f hf
    obtain ⟨hnil, hrEq⟩ := constructRecord_ok_inv hr
    obtain ⟨v, hres, hchk⟩ := failingFields_nil_all_pass hnil hf
    refine ⟨v, hres, hchk, ?_, ?_⟩
    · rw [hrEq]
      exact List.mem_filterMap.mpr ⟨f, hf, by rw [hres]; rfl⟩
    · intro hlook
      unfold resolveField at hres
      rw [hlook] at hres
      exact hres

theorem constructRecord_validates_witness :
    (constructRecord adderParams [("increment", PyArg.v 42)] =
        Except.error (Err.validationError (failingFields adderParams [("increment", PyArg.v 42)]))
      ∧ "increment" ∈ failingFields adderParams [("increment", PyArg.v 42)])
    ∧ ∃ v, resolveField [("extra", PyArg.v 5)] incrementField = some v
        ∧ incrementField.check v = true
        ∧ ("increment", v) ∈ ([("increment", PyArg.v 1)] : Record (PyArg Nat))
        ∧ (lookupKey [("extra", PyArg.v 5)] "increment" = none →
            incrementField.default = some v) := by
  constructor
  · exact (constructRecord_validates adderParams [("increment", PyArg.v 42)]).1
      incrementField (List.mem_singleton.mpr rfl) (PyArg.v 42) rfl rfl
  · exact (constructRecord_validates adderParams [("extra", PyArg.v 5)]).2
      [("increment", PyArg.v 1)] rfl incrementField (List.mem_singleton.mpr rfl)

/-- C9: a supplied key that matches no declared field changes nothing —
construction gives the very outcome it gives without that key, so it cannot
fail because of it — and a successfully constructed record carries only
declared field names. -/
theorem extra_keys_ignored {W : Type} (fields : List (FieldSpec W))
    (supplied : List (String × W)) (k : String) (x : W)
    (hk : ∀ f ∈ fields, f.name ≠ k) :
    constructRecord fields ((k, x) :: supplied) = constructRecord fields supplied
    ∧ ∀ r, constructRecord fields ((k, x) :: supplied) = Except.ok r →
        ∀ kv ∈ r, ∃ f ∈ fields, kv.1 = f.name := by
  refine ⟨constructRecord_congr fields
    (fun f hf => resolveField_extra supplied k x f (hk f hf)), ?_⟩
  intro r hr kv hkv
  obtain ⟨hnil, hrEq⟩ := constructRecord_ok_inv hr
  rw [hrEq] at hkv
  obtain ⟨f, hf, hsome⟩ := List.mem_filterMap.mp hkv
  cases hres : resolveField ((k, x) :: supplied) f with
  | none =>
    rw [hres] at hsome
    cases hsome
  | some v =>
    rw [hres] at hsome
    have hsome2 : some (f.name, v) = some kv := hsome
    injection hsome2 with h2
    exact ⟨f, hf, by rw [← h2]⟩

theorem extra_keys_ignored_witness :
    constructRecord adderParams [("extra", PyArg.v 7)] = constructRecord adderParams []
    ∧ ∀ r, constructRecord adderParams [("extra", PyArg.v 7)] = Except.ok r →
        ∀ kv ∈ r, ∃ f ∈ adderParams, kv.1 = f.name :=
  extra_keys_ignored adderParams [] "extra" (PyArg.v 7)
    (by
      intro f hf
      cases hf with
      | head => decide
      | tail _ h => cases h)

/-- C6: when the reserved `"callbacks"` key is present its value is
deep-copied (a value snapshot of the caller's sequence) into the node's hook
list and the key is deleted before the remaining keyword arguments reach the
parameters-record constructor — the forwarded mapping no longer binds the
reserved key; when the key is absent the node's hook list starts empty and the
arguments are forwarded as they are. -/
theorem init_handles_reserved_key {α β V : Type} (paramsType : List (FieldSpec (PyArg V)))
    (className : String) (runOverride : Option (α → Except Err β)) (σ : Store α β)
    (kwargs : List (String × PyArg V)) :
    (∀ addr, lookupKey kwargs "callbacks" = some (PyArg.hooksRef addr) →
        Algorithm.init paramsType className runOverride σ kwargs =
          (constructRecord paramsType (eraseKey kwargs "callbacks")).map
            (fun r => ⟨className, HookSeq.byValue (σ addr), r, runOverride⟩)
        ∧ lookupKey (eraseKey kwargs "callbacks") "callbacks" = none)
    ∧ (lookupKey kwargs "callbacks" = none →
        Algorithm.init paramsType className runOverride σ kwargs =
          (constructRecord paramsType kwargs).map
            (fun r => ⟨className, HookSeq.byValue [], r, runOverride⟩)) := by
  constructor
  · intro addr h
    refine ⟨?_, lookupKey_eraseKey_self kwargs "callbacks"⟩
    unfold Algorithm.init
    rw [h]
    cases hc : constructRecord paramsType (eraseKey kwargs "callbacks") <;>
      simp [Except.map, hc]
  · intro h
    unfold Algorithm.init
    rw [h]
    cases hc : constructRecord paramsType kwargs <;> simp [Except.map, hc]

theorem init_handles_reserved_key_witness :
    (Algorithm.init (α := Nat) (β := Nat) adderParams "Adder" (some runAdd) store₀
        kwWithCallbacks =
      (constructRecord adderParams (eraseKey kwWithCallbacks "callbacks")).map
        (fun r => ⟨"Adder", HookSeq.byValue (store₀ 0), r, some runAdd⟩)
      ∧ lookupKey (eraseKey kwWithCallbacks "callbacks") "callbacks" = none)
    ∧ Algorithm.init (α := Nat) (β := Nat) adderParams "Adder" (some runAdd) store₀
        kwPlain =
      (constructRecord adderParams kwPlain).map
        (fun r => ⟨"Adder", HookSeq.byValue [], r, some runAdd⟩) :=
  ⟨(init_handles_reserved_key adderParams "Adder" (some runAdd) store₀ kwWithCallbacks).1
      0 rfl,
   (init_handles_reserved_key adderParams "Adder" (some runAdd) store₀ kwPlain).2 rfl⟩

/-- C8: for a node the constructor built (so its hook list is a deep-copied
snapshot), mutating the caller's original hook sequence — overwriting any heap
cell, in particular the one the sequence came from — changes neither the hook
list the node observes nor anything `execute` does. -/
theorem hooks_copy_independence {α β V : Type} (paramsType : List (FieldSpec (PyArg V)))
    (className : String) (runOverride : Option (α → Except Err β)) (σ : Store α β)
    (kwargs : List (String × PyArg V)) (node : Algorithm α β V)
    (hnode : Algorithm.init paramsType className runOverride σ kwargs = Except.ok node)
    (addr : Nat) (hooks2 : List (Callback α β)) (args : α) :
    resolveHooks (updateStore σ addr hooks2) node.callbacks = resolveHooks σ node.callbacks
    ∧ Algorithm.execute (updateStore σ addr hooks2) node args = Algorithm.execute σ node args := by
  obtain ⟨hooks, hcb⟩ := init_ok_byValue hnode
  refine ⟨by rw [hcb]; rfl, ?_⟩
  unfold Algorithm.execute
  rw [hcb]
  rfl

theorem hooks_copy_independence_witness :
    resolveHooks (updateStore store₀ 0 []) builtNode.callbacks =
      resolveHooks store₀ builtNode.callbacks
    ∧ Algorithm.execute (updateStore store₀ 0 []) builtNode 5 =
        Algorithm.execute store₀ builtNode 5 :=
  hooks_copy_independence adderParams "Adder" (some runAdd) store₀ kwWithCallbacks
    builtNode rfl 0 [] 5

end ClassConfigs
